import Mathlib

/-!
Verification of the storyboard generation pipeline and the audio playback
logic of `src/services/geminiService.ts` (with the data model of
`src/types.ts`).  The remote generative API is modelled by the responses it
returns; the Web Audio platform (`AudioContext`, `AudioBufferSourceNode`,
the event loop) is modelled by an explicit state machine following the Web
Audio specification: a started source stops playing either when `stop()` is
called or when its buffer is exhausted, and in both cases an `ended` event
is queued and later delivered, running the node's `onended` handler.
-/

namespace GeminiService

/-! ### Data model (`types.ts`) -/

inductive StyleTheme
  | real
  | style2D
  | style3D
  deriving DecidableEq

inductive AspectRatio
  | r9x16
  | r16x9
  deriving DecidableEq

structure CharacterImage where
  base64 : String
  mimeType : String
  deriving DecidableEq

structure FormData where
  title : String
  description : String
  style : StyleTheme
  aspectRatio : AspectRatio
  character1 : Option CharacterImage
  character2 : Option CharacterImage
  deriving DecidableEq

structure StoryboardStructureClip where
  clip : Int
  narration : String
  prompt : String
  deriving DecidableEq

structure StoryboardStructureScene where
  scene : Int
  clips : List StoryboardStructureClip
  deriving DecidableEq

abbrev StoryboardStructure := List StoryboardStructureScene

structure Clip where
  clip : Int
  narration : String
  prompt : String
  image : String
  audio : String
  deriving DecidableEq

structure Scene where
  scene : Int
  clips : List Clip
  deriving DecidableEq

abbrev Storyboard := List Scene

/-! ### Response shape of the remote API (`GenerateContentResponse`) -/

structure InlineData where
  mimeType : String
  data : String
  deriving DecidableEq

structure Part where
  text : Option String
  inlineData : Option InlineData
  deriving DecidableEq

structure Content where
  parts : Option (List Part)
  deriving DecidableEq

structure Candidate where
  content : Option Content
  deriving DecidableEq

structure GenerateContentResponse where
  candidates : Option (List Candidate)
  deriving DecidableEq

/-- Loop body of `findInlineData`: the first part carrying `inlineData`
yields its `data`. -/
def findInlineDataLoop : List Part → Option String
  | [] => none
  | p :: ps =>
    match p.inlineData with
    | some d => some d.data
    | none => findInlineDataLoop ps

/-- The list `response.candidates?.[0]?.content?.parts ?? []` iterated by
`findInlineData`: optional chaining collapses a missing candidate list, an
empty candidate list, a missing `content` and missing `parts` to the empty
list. -/
def partsOfResponse (response : GenerateContentResponse) : List Part :=
  ((((response.candidates.bind List.head?).bind Candidate.content).bind Content.parts).getD [])

/-- `findInlineData` (geminiService.ts:129-136). -/
def findInlineData (response : GenerateContentResponse) : Option String :=
  findInlineDataLoop (partsOfResponse response)

/-! ### The storyboard pipeline (`generateStoryboard`) -/

/-- JavaScript truthiness of the optional payload string, as tested by
`if (!imageB64 || !audioB64)`: `undefined` and the empty string are falsy. -/
def isMissing : Option String → Bool
  | none => true
  | some s => s.isEmpty

def msgAnalyze : String := "Menganalisis cerita dan karakter..."

def msgVisuals : String := "Membuat visual untuk setiap klip..."

def msgDone : String := "Selesai!"

/-- The per-clip progress message, with the incremented running counter. -/
def clipProgressMessage (sceneNo clipNo : Int) (count total : Nat) : String :=
  "Membuat visual & audio untuk adegan " ++ toString sceneNo ++ ", klip " ++
    toString clipNo ++ "... (" ++ toString count ++ "/" ++ toString total ++ ")"

/-- The message of the error thrown when a media payload is missing. -/
def clipErrorMessage (clipNo sceneNo : Int) : String :=
  "Gagal membuat konten untuk klip " ++ toString clipNo ++ " di adegan " ++
    toString sceneNo ++ ". Respon API tidak valid atau diblokir."

def styleString : StyleTheme → String
  | StyleTheme.real => "Real"
  | StyleTheme.style2D => "Style 2D"
  | StyleTheme.style3D => "Style 3D"

def orientationWord (fd : FormData) : String :=
  match fd.aspectRatio with
  | AspectRatio.r9x16 => "portrait"
  | AspectRatio.r16x9 => "landscape"

/-- The `storyPrompt` template literal of `generateStoryboard`. -/
def storyPrompt (fd : FormData) : String :=
  "\n    You are an expert storyboard writer and AI prompt engineer for video creation.\n" ++
  "    Based on the following story details, create a complete storyboard.\n\n" ++
  "    Story Title: \"" ++ fd.title ++ "\"\n" ++
  "    Description: \"" ++ fd.description ++ "\"\n" ++
  "    Style: \"" ++ styleString fd.style ++ "\"\n\n" ++
  "    Characters:\n" ++
  "    - Character 1: The main protagonist, based on the first uploaded image.\n" ++
  "    - Character 2: The secondary protagonist, based on the second uploaded image (if provided).\n\n" ++
  "    Your task is to generate a JSON object representing a 4-scene storyboard.\n" ++
  "    - Each scene must have 3 clips.\n" ++
  "    - For each clip, you must provide:\n" ++
  "      1. a short, one-sentence narration in Indonesian.\n" ++
  "      2. a detailed, descriptive image generation prompt in English for a " ++
  orientationWord fd ++
  " aspect ratio. This prompt must describe the camera shot (e.g., cinematic wide shot, close-up, over-the-shoulder), the characters\x27 actions, the environment, and the lighting. Describe characters naturally based on the reference images (e.g., \"a woman with long silver hair,\" \"a man in a dark coat\"). Do not use generic placeholders like \"[CHARACTER_1]\". The prompt must be consistent with the requested style: \"" ++
  styleString fd.style ++ "\".\n\n" ++
  "    The story must be coherent and follow a logical progression. Ensure the characters remain consistent throughout the story.\n    "

/-- `fileToGenerativePart` (geminiService.ts:9-16). -/
def fileToGenerativePart (base64 : String) (mimeType : String) : Part :=
  { text := none, inlineData := some { data := base64, mimeType := mimeType } }

/-- The text instruction sent with each image request. -/
def imagePromptFor (clipPrompt : String) : String :=
  "Using the provided reference images for the characters, generate an image for the following prompt: " ++
    clipPrompt

/-- The `imageParts` array built for one clip: the optional character
reference parts followed by the text part. -/
def imageRequestParts (fd : FormData) (clipPrompt : String) : List Part :=
  ((fd.character1.map fun c => fileToGenerativePart c.base64 c.mimeType).toList ++
    (fd.character2.map fun c => fileToGenerativePart c.base64 c.mimeType).toList) ++
  [{ text := some (imagePromptFor clipPrompt), inlineData := none }]

/-- Observable steps of one pipeline run, in order: progress-callback
invocations and remote requests. -/
inductive PipelineEvent
  | progress (message : String)
  | structureRequest (prompt : String)
  | imageRequest (parts : List Part)
  | audioRequest (narration : String)
  deriving DecidableEq

/-- The remote media backend, modelled by the two responses it returns for
the n-th clip iteration (n = number of clips already processed). -/
structure MediaBackend where
  imageResponse : Nat → GenerateContentResponse
  audioResponse : Nat → GenerateContentResponse

/-- The three events of one clip iteration: progress callback (with the
already-incremented counter), then the two concurrently issued requests. -/
def clipSegment (fd : FormData) (sceneNo : Int) (c : StoryboardStructureClip)
    (count total : Nat) : List PipelineEvent :=
  [PipelineEvent.progress (clipProgressMessage sceneNo c.clip count total),
   PipelineEvent.imageRequest (imageRequestParts fd c.prompt),
   PipelineEvent.audioRequest c.narration]

/-- The clip record extended with its media, as pushed onto
`generatedClips`: `{ ...clip, image: data-URL, audio: audioB64 }`. -/
def attachClip (media : MediaBackend) (n : Nat) (c : StoryboardStructureClip) : Clip :=
  { clip := c.clip, narration := c.narration, prompt := c.prompt,
    image := "data:image/png;base64," ++ (findInlineData (media.imageResponse n)).getD "",
    audio := (findInlineData (media.audioResponse n)).getD "" }

/-- Inner loop of `generateStoryboard` over the clips of one scene.
`clipCount` is the number of clips already processed.  Returns the thrown
error message or the generated clips, together with the emitted events and
the final clip count. -/
def processClips (fd : FormData) (media : MediaBackend) (total : Nat) (sceneNo : Int) :
    List StoryboardStructureClip → Nat →
      Except String (List Clip) × List PipelineEvent × Nat
  | [], clipCount => (Except.ok [], [], clipCount)
  | c :: cs, clipCount =>
    let segment := clipSegment fd sceneNo c (clipCount + 1) total
    if isMissing (findInlineData (media.imageResponse clipCount)) ||
        isMissing (findInlineData (media.audioResponse clipCount)) then
      (Except.error (clipErrorMessage c.clip sceneNo), segment, clipCount + 1)
    else
      match processClips fd media total sceneNo cs (clipCount + 1) with
      | (Except.ok rest, events, finalCount) =>
        (Except.ok (attachClip media clipCount c :: rest), segment ++ events, finalCount)
      | (Except.error e, events, finalCount) =>
        (Except.error e, segment ++ events, finalCount)

/-- Outer loop of `generateStoryboard` over the scenes. -/
def processScenes (fd : FormData) (media : MediaBackend) (total : Nat) :
    StoryboardStructure → Nat →
      Except String Storyboard × List PipelineEvent × Nat
  | [], clipCount => (Except.ok [], [], clipCount)
  | s :: ss, clipCount =>
    match processClips fd media total s.scene s.clips clipCount with
    | (Except.ok generatedClips, events, count1) =>
      match processScenes fd media total ss count1 with
      | (Except.ok rest, events2, count2) =>
        (Except.ok ({ scene := s.scene, clips := generatedClips } :: rest),
         events ++ events2, count2)
      | (Except.error e, events2, count2) => (Except.error e, events ++ events2, count2)
    | (Except.error e, events, count1) => (Except.error e, events, count1)

/-- `storyStructure.reduce((acc, scene) => acc + scene.clips.length, 0)`. -/
def totalClips (s : StoryboardStructure) : Nat :=
  s.foldl (fun acc scene => acc + scene.clips.length) 0

/-- `generateStoryboard` (geminiService.ts:30-158).  The remote structure
call is modelled by its outcome `structResult`: `Except.error` is a thrown
`JSON.parse` exception on the response text, `Except.ok` the parsed value,
which the source casts to `StoryboardStructure` with no further validation.
The per-clip media calls are modelled by `media`.  Returns the result
together with the ordered trace of progress-callback invocations and remote
requests. -/
def generateStoryboard (fd : FormData) (structResult : Except String StoryboardStructure)
    (media : MediaBackend) : Except String Storyboard × List PipelineEvent :=
  let events0 := [PipelineEvent.progress msgAnalyze,
                  PipelineEvent.structureRequest (storyPrompt fd)]
  match structResult with
  | Except.error e => (Except.error e, events0)
  | Except.ok storyStructure =>
    let events1 := events0 ++ [PipelineEvent.progress msgVisuals]
    match processScenes fd media (totalClips storyStructure) storyStructure 0 with
    | (Except.ok finalStoryboard, events, _) =>
      (Except.ok finalStoryboard, events1 ++ events ++ [PipelineEvent.progress msgDone])
    | (Except.error e, events, _) => (Except.error e, events1 ++ events)

/-! ### Shape projections and the flattened clip list -/

def clipShape (c : Clip) : Int × String × String := (c.clip, c.narration, c.prompt)

def structClipShape (c : StoryboardStructureClip) : Int × String × String :=
  (c.clip, c.narration, c.prompt)

def sceneShape (s : Scene) : Int × List (Int × String × String) :=
  (s.scene, s.clips.map clipShape)

def structSceneShape (s : StoryboardStructureScene) : Int × List (Int × String × String) :=
  (s.scene, s.clips.map structClipShape)

def storyboardShape (sb : Storyboard) : List (Int × List (Int × String × String)) :=
  sb.map sceneShape

def structureShape (s : StoryboardStructure) : List (Int × List (Int × String × String)) :=
  s.map structSceneShape

/-- The clips of a structure in iteration order (scene-major), each paired
with its scene number. -/
def flatClips : StoryboardStructure → List (Int × StoryboardStructureClip)
  | [] => []
  | s :: ss => (s.clips.map fun c => (s.scene, c)) ++ flatClips ss

/-- The events of the media loop over a list of scene-number/clip pairs,
threading the running counter `k` (number of clips already processed). -/
def loopTrace (fd : FormData) (total : Nat) :
    List (Int × StoryboardStructureClip) → Nat → List PipelineEvent
  | [], _ => []
  | (sn, c) :: rest, k => clipSegment fd sn c (k + 1) total ++ loopTrace fd total rest (k + 1)

/-- The clips generated on a fully successful run, with the media of the
n-th, (n+1)-th, ... iterations attached. -/
def attachClips (media : MediaBackend) : List StoryboardStructureClip → Nat → List Clip
  | [], _ => []
  | c :: cs, n => attachClip media n c :: attachClips media cs (n + 1)

/-- The storyboard of a fully successful run. -/
def attachScenes (media : MediaBackend) : StoryboardStructure → Nat → Storyboard
  | [], _ => []
  | s :: ss, n =>
    { scene := s.scene, clips := attachClips media s.clips n } ::
      attachScenes media ss (n + s.clips.length)

/-- The n-th clip iteration succeeds: both payloads present and non-empty. -/
def mediaOk (media : MediaBackend) (n : Nat) : Prop :=
  isMissing (findInlineData (media.imageResponse n)) = false ∧
    isMissing (findInlineData (media.audioResponse n)) = false

/-! ### Pipeline lemmas -/

theorem loopTrace_append (fd : FormData) (total : Nat)
    (l1 l2 : List (Int × StoryboardStructureClip)) (k : Nat) :
    loopTrace fd total (l1 ++ l2) k =
      loopTrace fd total l1 k ++ loopTrace fd total l2 (k + l1.length) := by
  induction l1 generalizing k with
  | nil => simp [loopTrace]
  | cons p rest ih =>
    obtain ⟨sn, c⟩ := p
    have harith : k + (rest.length + 1) = k + 1 + rest.length := by omega
    simp [loopTrace, ih, List.append_assoc, harith]

theorem totalClips_eq_flat (s : StoryboardStructure) :
    totalClips s = (flatClips s).length := by
  suffices h : ∀ acc, List.foldl (fun a sc => a + sc.clips.length) acc s =
      acc + (flatClips s).length by simpa [totalClips] using h 0
  induction s with
  | nil => intro acc; simp [flatClips]
  | cons sc ss ih =>
    intro acc
    have : acc + sc.clips.length + (flatClips ss).length =
        acc + (sc.clips.length + (flatClips ss).length) := by omega
    simp [flatClips, ih, this]

theorem processClips_ok (fd : FormData) (media : MediaBackend) (total : Nat) (sceneNo : Int)
    (clips : List StoryboardStructureClip) (clipCount : Nat)
    (h : ∀ j, j < clips.length → mediaOk media (clipCount + j)) :
    processClips fd media total sceneNo clips clipCount =
      (Except.ok (attachClips media clips clipCount),
       loopTrace fd total (clips.map fun c => (sceneNo, c)) clipCount,
       clipCount + clips.length) := by
  induction clips generalizing clipCount with
  | nil => simp [processClips, attachClips, loopTrace]
  | cons c cs ih =>
    obtain ⟨h0i, h0a⟩ : mediaOk media clipCount := by
      have := h 0 (by simp)
      simpa using this
    have hrec := ih (clipCount + 1) (fun j hj => by
      have hx := h (j + 1) (by simp; omega)
      have heq : clipCount + 1 + j = clipCount + (j + 1) := by omega
      rw [heq]; exact hx)
    have harith : clipCount + 1 + cs.length = clipCount + (cs.length + 1) := by omega
    simp [processClips, h0i, h0a, hrec, attachClips, loopTrace, harith]

theorem processScenes_ok (fd : FormData) (media : MediaBackend) (total : Nat)
    (scenes : StoryboardStructure) (clipCount : Nat)
    (h : ∀ j, j < (flatClips scenes).length → mediaOk media (clipCount + j)) :
    processScenes fd media total scenes clipCount =
      (Except.ok (attachScenes media scenes clipCount),
       loopTrace fd total (flatClips scenes) clipCount,
       clipCount + (flatClips scenes).length) := by
  induction scenes generalizing clipCount with
  | nil => simp [processScenes, attachScenes, flatClips, loopTrace]
  | cons s ss ih =>
    have hlen : (flatClips (s :: ss)).length = s.clips.length + (flatClips ss).length := by
      simp [flatClips]
    have h1 := processClips_ok fd media total s.scene s.clips clipCount (fun j hj =>
      h j (by omega))
    have h2 := ih (clipCount + s.clips.length) (fun j hj => by
      have hx := h (s.clips.length + j) (by omega)
      have heq : clipCount + s.clips.length + j = clipCount + (s.clips.length + j) := by omega
      rw [heq]; exact hx)
    have harith : clipCount + s.clips.length + (flatClips ss).length =
        clipCount + (s.clips.length + (flatClips ss).length) := by omega
    simp [processScenes, h1, h2, attachScenes, flatClips, loopTrace_append, harith]

theorem processClips_error (fd : FormData) (media : MediaBackend) (total : Nat) (sceneNo : Int)
    (clips : List StoryboardStructureClip) (k clipCount : Nat) (hk : k < clips.length)
    (hgood : ∀ j, j < k → mediaOk media (clipCount + j))
    (hbad : isMissing (findInlineData (media.imageResponse (clipCount + k))) = true ∨
            isMissing (findInlineData (media.audioResponse (clipCount + k))) = true) :
    processClips fd media total sceneNo clips clipCount =
      (Except.error (clipErrorMessage clips[k].clip sceneNo),
       loopTrace fd total ((clips.take (k + 1)).map fun c => (sceneNo, c)) clipCount,
       clipCount + k + 1) := by
  induction clips generalizing k clipCount with
  | nil => exact absurd hk (by simp)
  | cons c cs ih =>
    cases k with
    | zero =>
      rw [Nat.add_zero] at hbad
      have hcond : (isMissing (findInlineData (media.imageResponse clipCount)) ||
          isMissing (findInlineData (media.audioResponse clipCount))) = true := by
        rcases hbad with hb | hb <;> simp [hb]
      simp [processClips, hcond, loopTrace, clipSegment]
    | succ k' =>
      obtain ⟨h0i, h0a⟩ : mediaOk media clipCount := by
        have := hgood 0 (by omega)
        simpa using this
      have hk' : k' < cs.length := by simpa using hk
      have hrec := ih k' (clipCount + 1) hk'
        (fun j hj => by
          have hx := hgood (j + 1) (by omega)
          have heq : clipCount + 1 + j = clipCount + (j + 1) := by omega
          rw [heq]; exact hx)
        (by
          have heq : clipCount + 1 + k' = clipCount + (k' + 1) := by omega
          rw [heq]; exact hbad)
      have harith : clipCount + 1 + k' + 1 = clipCount + (k' + 1) + 1 := by omega
      simp [processClips, h0i, h0a, hrec, loopTrace, harith, List.take_succ_cons]

theorem processScenes_error (fd : FormData) (media : MediaBackend) (total : Nat)
    (scenes : StoryboardStructure) (k clipCount : Nat) (hk : k < (flatClips scenes).length)
    (hgood : ∀ j, j < k → mediaOk media (clipCount + j))
    (hbad : isMissing (findInlineData (media.imageResponse (clipCount + k))) = true ∨
            isMissing (findInlineData (media.audioResponse (clipCount + k))) = true) :
    processScenes fd media total scenes clipCount =
      (Except.error (clipErrorMessage (flatClips scenes)[k].2.clip (flatClips scenes)[k].1),
       loopTrace fd total ((flatClips scenes).take (k + 1)) clipCount,
       clipCount + k + 1) := by
  induction scenes generalizing k clipCount with
  | nil => exact absurd hk (by simp [flatClips])
  | cons s ss ih =>
    have hlen : (flatClips (s :: ss)).length = s.clips.length + (flatClips ss).length := by
      simp [flatClips]
    by_cases hcase : k < s.clips.length
    · have h1 := processClips_error fd media total s.scene s.clips k clipCount hcase hgood hbad
      have hget : (flatClips (s :: ss))[k] = (s.scene, s.clips[k]) := by
        have hkm : k < (s.clips.map fun c => (s.scene, c)).length := by simpa using hcase
        simp [flatClips, List.getElem_append_left hkm]
      have htake : (flatClips (s :: ss)).take (k + 1) =
          (s.clips.take (k + 1)).map fun c => (s.scene, c) := by
        have hle : k + 1 ≤ (s.clips.map fun c => (s.scene, c)).length := by simpa using hcase
        simp [flatClips, List.take_append_of_le_length hle, List.map_take]
      simp [processScenes, h1, hget, htake]
    · push_neg at hcase
      have h1 := processClips_ok fd media total s.scene s.clips clipCount (fun j hj =>
        hgood j (by omega))
      have hk2 : k - s.clips.length < (flatClips ss).length := by omega
      have h2 := ih (k - s.clips.length) (clipCount + s.clips.length) hk2
        (fun j hj => by
          have hx := hgood (s.clips.length + j) (by omega)
          have heq : clipCount + s.clips.length + j = clipCount + (s.clips.length + j) := by
            omega
          rw [heq]; exact hx)
        (by
          have heq : clipCount + s.clips.length + (k - s.clips.length) = clipCount + k := by
            omega
          rw [heq]; exact hbad)
      have hget : (flatClips (s :: ss))[k] = (flatClips ss)[k - s.clips.length] := by
        have hkm : (s.clips.map fun c => (s.scene, c)).length ≤ k := by simpa using hcase
        simp [flatClips, List.getElem_append_right hkm]
      have htake : (flatClips (s :: ss)).take (k + 1) =
          ((s.clips.map fun c => (s.scene, c)) ++ (flatClips ss).take (k - s.clips.length + 1)) := by
        have h1' : ((s.clips.map fun c => (s.scene, c)) : List _).length ≤ k + 1 := by
          simp; omega
        have h2' : (k + 1) - (s.clips.map fun c => (s.scene, c)).length =
            k - s.clips.length + 1 := by simp; omega
        rw [flatClips, List.take_append_eq_append_take, List.take_of_length_le h1', h2']
      have harith : clipCount + s.clips.length + (k - s.clips.length) + 1 =
          clipCount + k + 1 := by omega
      simp [processScenes, h1, h2, hget, htake, loopTrace_append, harith]

theorem processClips_shape (fd : FormData) (media : MediaBackend) (total : Nat) (sceneNo : Int)
    (clips : List StoryboardStructureClip) :
    ∀ (clipCount : Nat) (l : List Clip) (events : List PipelineEvent) (cnt : Nat),
      processClips fd media total sceneNo clips clipCount = (Except.ok l, events, cnt) →
      l.map clipShape = clips.map structClipShape := by
  induction clips with
  | nil =>
    intro clipCount l events cnt h
    simp [processClips] at h
    simp [h.1]
  | cons c cs ih =>
    intro clipCount l events cnt h
    rcases hres : processClips fd media total sceneNo cs (clipCount + 1) with ⟨res, ev2, cnt2⟩
    by_cases hcond : (isMissing (findInlineData (media.imageResponse clipCount)) ||
        isMissing (findInlineData (media.audioResponse clipCount))) = true
    · simp [processClips, hcond] at h
    · rw [Bool.not_eq_true] at hcond
      cases res with
      | ok rest =>
        simp [processClips, hcond, hres] at h
        obtain ⟨hl, -, -⟩ := h
        subst hl
        simp [clipShape, attachClip, structClipShape, ih (clipCount + 1) rest ev2 cnt2 hres]
      | error e => simp [processClips, hcond, hres] at h

theorem processScenes_shape (fd : FormData) (media : MediaBackend) (total : Nat)
    (scenes : StoryboardStructure) :
    ∀ (clipCount : Nat) (sb : Storyboard) (events : List PipelineEvent) (cnt : Nat),
      processScenes fd media total scenes clipCount = (Except.ok sb, events, cnt) →
      storyboardShape sb = structureShape scenes := by
  induction scenes with
  | nil =>
    intro clipCount sb events cnt h
    simp [processScenes] at h
    simp [storyboardShape, structureShape, h.1]
  | cons s ss ih =>
    intro clipCount sb events cnt h
    rcases h1 : processClips fd media total s.scene s.clips clipCount with ⟨res1, ev1, cnt1⟩
    cases res1 with
    | error e => simp [processScenes, h1] at h
    | ok generated =>
      rcases h2 : processScenes fd media total ss cnt1 with ⟨res2, ev2, cnt2⟩
      cases res2 with
      | error e => simp [processScenes, h1, h2] at h
      | ok rest =>
        simp [processScenes, h1, h2] at h
        obtain ⟨hsb, -, -⟩ := h
        subst hsb
        have hc := processClips_shape fd media total s.scene s.clips clipCount generated ev1 cnt1 h1
        have hs := ih cnt1 rest ev2 cnt2 h2
        simp [storyboardShape, structureShape, sceneShape, structSceneShape, hc, hs]
        simpa [storyboardShape, structureShape] using hs

def isProgressEvent : PipelineEvent → Bool
  | PipelineEvent.progress _ => true
  | _ => false

theorem loopTrace_filter_progress (fd : FormData) (total : Nat) :
    ∀ (l : List (Int × StoryboardStructureClip)) (k : Nat),
      ((loopTrace fd total l k).filter isProgressEvent).length = l.length := by
  intro l
  induction l with
  | nil => intro k; simp [loopTrace]
  | cons p rest ih =>
    intro k
    obtain ⟨sn, c⟩ := p
    simp [loopTrace, clipSegment, isProgressEvent, ih]

def defaultFlatClip : Int × StoryboardStructureClip :=
  (0, { clip := 0, narration := "", prompt := "" })

theorem loopTrace_getD (fd : FormData) (total : Nat) :
    ∀ (l : List (Int × StoryboardStructureClip)) (k i : Nat), i < l.length →
      (loopTrace fd total l k).getD (3 * i) (PipelineEvent.progress "") =
        PipelineEvent.progress (clipProgressMessage (l.getD i defaultFlatClip).1
          (l.getD i defaultFlatClip).2.clip (k + i + 1) total) ∧
      (loopTrace fd total l k).getD (3 * i + 1) (PipelineEvent.progress "") =
        PipelineEvent.imageRequest (imageRequestParts fd (l.getD i defaultFlatClip).2.prompt) ∧
      (loopTrace fd total l k).getD (3 * i + 2) (PipelineEvent.progress "") =
        PipelineEvent.audioRequest (l.getD i defaultFlatClip).2.narration := by
  intro l
  induction l with
  | nil => intro k i hi; simp at hi
  | cons p rest ih =>
    intro k i hi
    obtain ⟨sn, c⟩ := p
    cases i with
    | zero => simp [loopTrace, clipSegment, List.getD]
    | succ i' =>
      have hi' : i' < rest.length := by simpa using hi
      have hrec := ih (k + 1) i' hi'
      have h3 : 3 * (i' + 1) = 3 * i' + 1 + 1 + 1 := by ring
      have hk : k + 1 + i' + 1 = k + (i' + 1) + 1 := by omega
      rw [h3]
      simpa [loopTrace, clipSegment, List.getD_cons_succ, hk] using hrec

/-! ### JSON values and the response schema of the structure request -/

inductive Json
  | null
  | bool (b : Bool)
  | num (n : Int)
  | str (s : String)
  | arr (items : List Json)
  | obj (fields : List (String × Json))

/-- The subset of the response-schema language used by the source
configuration: `Type.INTEGER`, `Type.STRING`, `Type.ARRAY` with `items`,
`Type.OBJECT` with `properties` and `required`.  The configuration in the
source sets no `minItems`/`maxItems`, so no count constraint occurs. -/
inductive Schema
  | integer
  | string
  | array (items : Schema)
  | object (properties : List (String × Schema)) (required : List String)

def lookupField (fields : List (String × Json)) (key : String) : Option Json :=
  (fields.find? fun f => f.1 == key).map Prod.snd

mutual

/-- Conformance of a JSON value to a schema: matching type, all `required`
keys present, every array element conforming to `items`, every field that
has a declared property conforming to it.  Arrays of any length conform. -/
def conformsTo : Json → Schema → Bool
  | Json.num _, Schema.integer => true
  | Json.str _, Schema.string => true
  | Json.arr items, Schema.array itemSchema => conformsAll items itemSchema
  | Json.obj fields, Schema.object properties required =>
    (required.all fun key => (lookupField fields key).isSome) &&
      conformsFields fields properties
  | _, _ => false

def conformsAll : List Json → Schema → Bool
  | [], _ => true
  | j :: js, sch => conformsTo j sch && conformsAll js sch

def conformsFields : List (String × Json) → List (String × Schema) → Bool
  | [], _ => true
  | (key, value) :: rest, properties =>
    (match properties.find? fun p => p.1 == key with
     | none => true
     | some p => conformsTo value p.2) && conformsFields rest properties

end

/-- The clip schema of the structure request configuration. -/
def clipSchema : Schema :=
  Schema.object
    [("clip", Schema.integer), ("narration", Schema.string), ("prompt", Schema.string)]
    ["clip", "narration", "prompt"]

/-- The scene schema of the structure request configuration. -/
def sceneSchema : Schema :=
  Schema.object [("scene", Schema.integer), ("clips", Schema.array clipSchema)]
    ["scene", "clips"]

/-- The `responseSchema` of the structure request (geminiService.ts:62-86):
an array of scene objects, each with an integer `scene` and an array of
clip objects.  No `minItems`/`maxItems` appears anywhere, so neither the
scene count nor the per-scene clip count is constrained. -/
def responseSchema : Schema := Schema.array sceneSchema

def structClipToJson (c : StoryboardStructureClip) : Json :=
  Json.obj [("clip", Json.num c.clip), ("narration", Json.str c.narration),
            ("prompt", Json.str c.prompt)]

def structSceneToJson (s : StoryboardStructureScene) : Json :=
  Json.obj [("scene", Json.num s.scene), ("clips", Json.arr (s.clips.map structClipToJson))]

def structureToJson (s : StoryboardStructure) : Json :=
  Json.arr (s.map structSceneToJson)

theorem conformsTo_arr (items : List Json) (sch : Schema) :
    conformsTo (Json.arr items) (Schema.array sch) = conformsAll items sch := by
  simp [conformsTo]

theorem conformsAll_cons (j : Json) (js : List Json) (sch : Schema) :
    conformsAll (j :: js) sch = (conformsTo j sch && conformsAll js sch) := by
  simp [conformsAll]

theorem conformsTo_clipJson (c : StoryboardStructureClip) :
    conformsTo (structClipToJson c) clipSchema = true := by
  simp [structClipToJson, clipSchema, conformsTo, conformsFields, lookupField]

theorem conformsTo_sceneJson (s : StoryboardStructureScene) :
    conformsTo (structSceneToJson s) sceneSchema = true := by
  have hclips : conformsAll (s.clips.map structClipToJson) clipSchema = true := by
    induction s.clips with
    | nil => simp [conformsAll]
    | cons c cs ih => rw [List.map_cons, conformsAll_cons, conformsTo_clipJson c, ih]; rfl
  simp [structSceneToJson, sceneSchema, conformsTo, conformsFields, lookupField,
    conformsTo_arr, hclips]

/-- Any scene list at all, of any length and with scenes of any clip
counts, conforms to the response schema of the structure request. -/
theorem structureToJson_conforms (s : StoryboardStructure) :
    conformsTo (structureToJson s) responseSchema = true := by
  rw [structureToJson, responseSchema, conformsTo_arr]
  induction s with
  | nil => simp [conformsAll]
  | cons sc ss ih =>
    rw [List.map_cons, conformsAll_cons, conformsTo_sceneJson sc, ih]; rfl

/-! ### Concrete fixtures -/

def sampleFormData : FormData :=
  { title := "T", description := "D", style := StyleTheme.real,
    aspectRatio := AspectRatio.r9x16, character1 := none, character2 := none }

def payloadPart (payload : String) : Part :=
  { text := none, inlineData := some { mimeType := "image/png", data := payload } }

def payloadResponse (payload : String) : GenerateContentResponse :=
  { candidates := some [{ content := some { parts := some [payloadPart payload] } }] }

def emptyResponse : GenerateContentResponse := { candidates := some [] }

def goodMedia : MediaBackend :=
  { imageResponse := fun _ => payloadResponse "IMG",
    audioResponse := fun _ => payloadResponse "AUD" }

def sampleClip (n : Int) : StoryboardStructureClip :=
  { clip := n, narration := "N", prompt := "P" }

def sampleScene (sn : Int) : StoryboardStructureScene :=
  { scene := sn, clips := [sampleClip 1, sampleClip 2, sampleClip 3] }

/-- A well-formed 4-scene, 3-clip structure. -/
def sampleStructure : StoryboardStructure :=
  [sampleScene 1, sampleScene 2, sampleScene 3, sampleScene 4]

/-- A single-scene, single-clip structure: not the 4-scene / 3-clip shape. -/
def oneSceneStructure : StoryboardStructure :=
  [{ scene := 1, clips := [{ clip := 1, narration := "N", prompt := "P" }] }]

/-- A backend that omits the image payload on the 6th clip iteration, which
for `sampleStructure` is scene 2, clip 3. -/
def failingMedia : MediaBackend :=
  { imageResponse := fun n => if n = 5 then emptyResponse else payloadResponse "IMG",
    audioResponse := fun _ => payloadResponse "AUD" }

theorem goodMedia_ok (n : Nat) : mediaOk goodMedia n := ⟨rfl, rfl⟩

/-! ### Claim C1 -/

/-- Claim C1, counterexample.  The claim says the 4-scene / 3-clip shape is
enforced by the response schema and that any non-conforming decoded shape
fails with a structural-decode error.  Counterexample: a single-scene,
single-clip response conforms to the `responseSchema` sent with the request
(which carries no `minItems`/`maxItems`), and the pipeline accepts it with
no decode error, returning a 1-scene storyboard.  The source performs only
`JSON.parse(response.text)` with an unchecked cast and never inspects the
scene or clip counts. -/
theorem structure_shape_counterexample :
    conformsTo (structureToJson oneSceneStructure) responseSchema = true ∧
    oneSceneStructure.length = 1 ∧
    (generateStoryboard sampleFormData (Except.ok oneSceneStructure) goodMedia).1 =
      Except.ok [⟨1, [⟨1, "N", "P", "data:image/png;base64,IMG", "AUD"⟩]⟩] := by
  refine ⟨structureToJson_conforms oneSceneStructure, rfl, ?_⟩
  rfl

/-- Claim C1, amended.  The structure request asks for 4 scenes of 3 clips
through the prompt text, and the response schema constrains only the field
shape of each scene and clip object, not the counts: every scene list of
any shape conforms to it.  Client-side there is no validation at all: a
structural-decode error arises exactly when `JSON.parse` throws on the
response text, and every successfully parsed structure, of any scene or
clip count, is carried through to a storyboard of the same shape. -/
theorem structure_decode_behaviour :
    (∀ s : StoryboardStructure, conformsTo (structureToJson s) responseSchema = true) ∧
    (∀ (fd : FormData) (e : String) (media : MediaBackend),
      generateStoryboard fd (Except.error e) media =
        (Except.error e,
         [PipelineEvent.progress msgAnalyze, PipelineEvent.structureRequest (storyPrompt fd)])) ∧
    (∀ (fd : FormData) (s : StoryboardStructure) (media : MediaBackend),
      (∀ n, mediaOk media n) →
      (generateStoryboard fd (Except.ok s) media).1 = Except.ok (attachScenes media s 0) ∧
      storyboardShape (attachScenes media s 0) = structureShape s) := by
  refine ⟨structureToJson_conforms, fun fd e media => rfl, fun fd s media hmedia => ?_⟩
  have h := processScenes_ok fd media (totalClips s) s 0 (fun j hj => by simpa using hmedia j)
  constructor
  · simp [generateStoryboard, h]
  · exact processScenes_shape fd media (totalClips s) s 0 (attachScenes media s 0)
      (loopTrace fd (totalClips s) (flatClips s) 0) (0 + (flatClips s).length) h

theorem structure_decode_behaviour_witness :
    conformsTo (structureToJson oneSceneStructure) responseSchema = true ∧
    generateStoryboard sampleFormData (Except.error "SyntaxError: Unexpected token") goodMedia =
      (Except.error "SyntaxError: Unexpected token",
       [PipelineEvent.progress msgAnalyze,
        PipelineEvent.structureRequest (storyPrompt sampleFormData)]) ∧
    ((generateStoryboard sampleFormData (Except.ok oneSceneStructure) goodMedia).1 =
      Except.ok (attachScenes goodMedia oneSceneStructure 0) ∧
     storyboardShape (attachScenes goodMedia oneSceneStructure 0) =
       structureShape oneSceneStructure) :=
  ⟨structure_decode_behaviour.1 oneSceneStructure,
   structure_decode_behaviour.2.1 sampleFormData "SyntaxError: Unexpected token" goodMedia,
   structure_decode_behaviour.2.2 sampleFormData oneSceneStructure goodMedia goodMedia_ok⟩

/-! ### Claim C2 -/

/-- Claim C2, confirmed.  If every clip iteration before the k-th succeeds
and at the k-th either response carries no inline binary payload, the
pipeline returns the thrown error, whose message is built from that clip's
number and its scene's number; no storyboard is returned, and the event
trace shows that exactly the first k+1 clips were attempted (a progress
message and a request pair each), so clips after the failing one are never
started, and the clips completed before it are discarded with the
failure. -/
theorem clip_media_failure_aborts (fd : FormData) (s : StoryboardStructure)
    (media : MediaBackend) (k : Nat) (hk : k < (flatClips s).length)
    (hgood : ∀ j, j < k → mediaOk media j)
    (hbad : findInlineData (media.imageResponse k) = none ∨
            findInlineData (media.audioResponse k) = none) :
    generateStoryboard fd (Except.ok s) media =
      (Except.error (clipErrorMessage (flatClips s)[k].2.clip (flatClips s)[k].1),
       [PipelineEvent.progress msgAnalyze, PipelineEvent.structureRequest (storyPrompt fd),
        PipelineEvent.progress msgVisuals] ++
         loopTrace fd (totalClips s) ((flatClips s).take (k + 1)) 0) := by
  have hbad' : isMissing (findInlineData (media.imageResponse (0 + k))) = true ∨
      isMissing (findInlineData (media.audioResponse (0 + k))) = true := by
    rcases hbad with hb | hb
    · left; rw [Nat.zero_add, hb]; rfl
    · right; rw [Nat.zero_add, hb]; rfl
  have h := processScenes_error fd media (totalClips s) s k 0 hk
    (fun j hj => by simpa using hgood j hj) hbad'
  simp [generateStoryboard, h]

theorem clip_media_failure_aborts_witness :
    generateStoryboard sampleFormData (Except.ok sampleStructure) failingMedia =
      (Except.error (clipErrorMessage 3 2),
       [PipelineEvent.progress msgAnalyze,
        PipelineEvent.structureRequest (storyPrompt sampleFormData),
        PipelineEvent.progress msgVisuals] ++
         loopTrace sampleFormData (totalClips sampleStructure)
           ((flatClips sampleStructure).take 6) 0) := by
  have h := clip_media_failure_aborts sampleFormData sampleStructure failingMedia 5
    (by decide)
    (fun j hj => by
      have hj5 : j ≠ 5 := by omega
      refine ⟨?_, rfl⟩
      show isMissing (findInlineData (if j = 5 then emptyResponse else payloadResponse "IMG")) =
        false
      rw [if_neg hj5]
      rfl)
    (Or.inl rfl)
  simpa using h

/-! ### Claim C3 -/

/-- Claim C3, confirmed.  Whenever the pipeline returns a storyboard, its
shape — the scene numbers in order, and for each scene the clip numbers,
narrations and prompts in order — equals the shape of the parsed structure:
stage two only attaches the `image` and `audio` fields. -/
theorem stage_two_preserves_shape (fd : FormData)
    (structResult : Except String StoryboardStructure) (media : MediaBackend)
    (sb : Storyboard) (events : List PipelineEvent)
    (h : generateStoryboard fd structResult media = (Except.ok sb, events)) :
    ∃ s, structResult = Except.ok s ∧ storyboardShape sb = structureShape s := by
  cases structResult with
  | error e => simp [generateStoryboard] at h
  | ok s =>
    refine ⟨s, rfl, ?_⟩
    rcases hres : processScenes fd media (totalClips s) s 0 with ⟨res, ev, cnt⟩
    cases res with
    | error e =>
      rw [generateStoryboard] at h
      simp [hres] at h
    | ok sb' =>
      rw [generateStoryboard] at h
      simp [hres] at h
      obtain ⟨hsb, -⟩ := h
      subst hsb
      exact processScenes_shape fd media (totalClips s) s 0 sb' ev cnt hres

theorem stage_two_preserves_shape_witness :
    ∃ s, (Except.ok sampleStructure : Except String StoryboardStructure) = Except.ok s ∧
      storyboardShape (attachScenes goodMedia sampleStructure 0) = structureShape s :=
  stage_two_preserves_shape sampleFormData (Except.ok sampleStructure) goodMedia
    (attachScenes goodMedia sampleStructure 0)
    ((generateStoryboard sampleFormData (Except.ok sampleStructure) goodMedia).2) (by rfl)

/-! ### Claim C4 -/

/-- Claim C4, confirmed.  On a run whose media loop completes, the trace
is: one progress invocation, then the structure request, then one progress
invocation, then the media loop trace, then a final progress invocation;
the loop trace contains exactly `totalClips s` progress invocations, and
for each flattened clip index i the event at position 3i is the progress
invocation carrying the counter i+1 out of `totalClips s` (so the counters
are 1/C, ..., C/C, strictly increasing), followed at positions 3i+1 and
3i+2 by that clip's image and audio requests. -/
theorem progress_callback_ordering (fd : FormData) (s : StoryboardStructure)
    (media : MediaBackend) (hmedia : ∀ n, mediaOk media n) :
    (generateStoryboard fd (Except.ok s) media).2 =
      PipelineEvent.progress msgAnalyze :: PipelineEvent.structureRequest (storyPrompt fd) ::
        PipelineEvent.progress msgVisuals ::
        (loopTrace fd (totalClips s) (flatClips s) 0 ++ [PipelineEvent.progress msgDone]) ∧
    ((loopTrace fd (totalClips s) (flatClips s) 0).filter isProgressEvent).length =
      totalClips s ∧
    ∀ i, i < totalClips s →
      (loopTrace fd (totalClips s) (flatClips s) 0).getD (3 * i) (PipelineEvent.progress "") =
        PipelineEvent.progress (clipProgressMessage ((flatClips s).getD i defaultFlatClip).1
          ((flatClips s).getD i defaultFlatClip).2.clip (i + 1) (totalClips s)) ∧
      (loopTrace fd (totalClips s) (flatClips s) 0).getD (3 * i + 1)
          (PipelineEvent.progress "") =
        PipelineEvent.imageRequest
          (imageRequestParts fd ((flatClips s).getD i defaultFlatClip).2.prompt) ∧
      (loopTrace fd (totalClips s) (flatClips s) 0).getD (3 * i + 2)
          (PipelineEvent.progress "") =
        PipelineEvent.audioRequest ((flatClips s).getD i defaultFlatClip).2.narration := by
  have h := processScenes_ok fd media (totalClips s) s 0 (fun j hj => by simpa using hmedia j)
  refine ⟨?_, ?_, ?_⟩
  · simp [generateStoryboard, h]
  · rw [loopTrace_filter_progress, totalClips_eq_flat]
  · intro i hi
    have hlt : i < (flatClips s).length := by rw [← totalClips_eq_flat]; exact hi
    have hgetd := loopTrace_getD fd (totalClips s) (flatClips s) 0 i hlt
    simpa using hgetd

theorem progress_callback_ordering_witness :
    (generateStoryboard sampleFormData (Except.ok sampleStructure) goodMedia).2 =
      PipelineEvent.progress msgAnalyze ::
        PipelineEvent.structureRequest (storyPrompt sampleFormData) ::
        PipelineEvent.progress msgVisuals ::
        (loopTrace sampleFormData (totalClips sampleStructure) (flatClips sampleStructure) 0 ++
          [PipelineEvent.progress msgDone]) :=
  (progress_callback_ordering sampleFormData sampleStructure goodMedia goodMedia_ok).1

/-! ### Claim C6 -/

theorem findInlineDataLoop_eq_findSome (l : List Part) :
    findInlineDataLoop l = l.findSome? fun p => p.inlineData.map InlineData.data := by
  induction l with
  | nil => rfl
  | cons p ps ih =>
    cases hp : p.inlineData <;>
      simp [findInlineDataLoop, List.findSome?_cons, hp, ih]

theorem findInlineDataLoop_none (l : List Part) (h : ∀ p ∈ l, p.inlineData = none) :
    findInlineDataLoop l = none := by
  induction l with
  | nil => rfl
  | cons p ps ih =>
    have hp := h p (by simp)
    simp [findInlineDataLoop, hp]
    exact ih fun q hq => h q (by simp [hq])

/-- Claim C6, confirmed.  Payload extraction returns the data of the first
part carrying inline binary data among the parts of the first returned
candidate, and returns `undefined` — without throwing — when the candidate
list is absent or empty, the first candidate lacks `content` or `parts`, or
no part carries inline data. -/
theorem findInlineData_extraction :
    (∀ r : GenerateContentResponse,
      findInlineData r =
        (partsOfResponse r).findSome? fun p => p.inlineData.map InlineData.data) ∧
    (∀ r : GenerateContentResponse, r.candidates = none → findInlineData r = none) ∧
    (∀ r : GenerateContentResponse, r.candidates = some [] → findInlineData r = none) ∧
    (∀ (r : GenerateContentResponse) (c : Candidate) (cs : List Candidate),
      r.candidates = some (c :: cs) → c.content = none → findInlineData r = none) ∧
    (∀ (r : GenerateContentResponse) (c : Candidate) (cs : List Candidate) (ct : Content),
      r.candidates = some (c :: cs) → c.content = some ct → ct.parts = none →
      findInlineData r = none) ∧
    (∀ r : GenerateContentResponse,
      (∀ p ∈ partsOfResponse r, p.inlineData = none) → findInlineData r = none) := by
  refine ⟨fun r => findInlineDataLoop_eq_findSome _, ?_, ?_, ?_, ?_, ?_⟩
  · intro r h; simp [findInlineData, partsOfResponse, h, findInlineDataLoop]
  · intro r h; simp [findInlineData, partsOfResponse, h, findInlineDataLoop]
  · intro r c cs hr hc
    simp [findInlineData, partsOfResponse, hr, hc, findInlineDataLoop]
  · intro r c cs ct hr hc hp
    simp [findInlineData, partsOfResponse, hr, hc, hp, findInlineDataLoop]
  · intro r h; exact findInlineDataLoop_none _ h

theorem findInlineData_extraction_witness :
    findInlineData { candidates := none } = none ∧
    findInlineData emptyResponse = none ∧
    findInlineData (payloadResponse "IMG") =
      (partsOfResponse (payloadResponse "IMG")).findSome?
        (fun p => p.inlineData.map InlineData.data) :=
  ⟨findInlineData_extraction.2.1 { candidates := none } rfl,
   findInlineData_extraction.2.2.1 emptyResponse rfl,
   findInlineData_extraction.1 (payloadResponse "IMG")⟩

/-! ### Audio decoding (`decode`, `decodeAudioData`)

`decode` turns a base64 string into a byte buffer through the platform
primitive `atob` and `charCodeAt`; the model works on its output, a list of
byte values.  `decodeAudioData` views the byte buffer as an `Int16Array`
(platform byte order, little-endian), creates an `AudioBuffer` of that many
frames — `ctx.createBuffer(1, frameCount, 24000)`, which per the Web Audio
specification throws `NotSupportedError` when `frameCount` is zero — and
fills it with `dataInt16[i] / 32768.0`.  Every quotient `v / 32768` of a
16-bit integer is exactly representable in binary floating point, so the
sample values are modelled in `ℚ` without loss. -/

/-- Two's-complement signed value of a 16-bit word, as an `Int16Array`
element read. -/
def toInt16 (w : Nat) : Int :=
  if w % 65536 < 32768 then ((w % 65536 : Nat) : Int) else ((w % 65536 : Nat) : Int) - 65536

/-- `new Int16Array(data.buffer)`: the byte buffer viewed as little-endian
16-bit words; constructing the view throws a `RangeError` when the byte
length is not a multiple of 2. -/
def int16View : List Nat → Option (List Int)
  | [] => some []
  | [_] => none
  | lo :: hi :: rest => (int16View rest).map fun ws => toInt16 (lo + 256 * hi) :: ws

def rangeErrorMessage : String :=
  "RangeError: byte length of Int16Array should be a multiple of 2"

def notSupportedMessage : String :=
  "NotSupportedError: createBuffer: number of frames must be positive"

/-- The conversion `dataInt16[i] / 32768.0` of one sample. -/
def sampleValue (v : Int) : ℚ := (v : ℚ) / 32768

/-- `decodeAudioData` (geminiService.ts:172-184). -/
def decodeAudioData (data : List Nat) : Except String (List ℚ) :=
  match int16View data with
  | none => Except.error rangeErrorMessage
  | some samples =>
    if samples.length = 0 then Except.error notSupportedMessage
    else Except.ok (samples.map sampleValue)

theorem int16View_length (bytes : List Nat) (ws : List Int)
    (h : int16View bytes = some ws) : bytes.length = 2 * ws.length := by
  induction bytes using int16View.induct generalizing ws with
  | case1 =>
    simp [int16View] at h
    simp [← h]
  | case2 b => simp [int16View] at h
  | case3 lo hi rest ih =>
    rcases hrec : int16View rest with - | ws'
    · rw [int16View, hrec] at h; simp at h
    · rw [int16View, hrec] at h
      simp at h
      subst h
      have hlen := ih ws' hrec
      simp only [List.length_cons]
      omega

theorem int16View_even (bytes : List Nat) (h : bytes.length % 2 = 0) :
    ∃ ws, int16View bytes = some ws := by
  induction bytes using int16View.induct with
  | case1 => exact ⟨[], rfl⟩
  | case2 b => simp at h
  | case3 lo hi rest ih =>
    have h' : rest.length % 2 = 0 := by simp at h; omega
    obtain ⟨ws, hws⟩ := ih h'
    exact ⟨toInt16 (lo + 256 * hi) :: ws, by simp [int16View, hws]⟩

theorem int16View_odd (bytes : List Nat) (h : bytes.length % 2 = 1) :
    int16View bytes = none := by
  induction bytes using int16View.induct with
  | case1 => simp at h
  | case2 b => rfl
  | case3 lo hi rest ih =>
    have h' : rest.length % 2 = 1 := by simp at h; omega
    have := ih h'
    simp [int16View, this]

theorem int16View_getD (bytes : List Nat) (ws : List Int)
    (h : int16View bytes = some ws) :
    ∀ i, i < ws.length →
      ws.getD i 0 = toInt16 (bytes.getD (2 * i) 0 + 256 * bytes.getD (2 * i + 1) 0) := by
  induction bytes using int16View.induct generalizing ws with
  | case1 =>
    simp [int16View] at h
    subst h
    intro i hi
    simp at hi
  | case2 b => simp [int16View] at h
  | case3 lo hi rest ih =>
    rcases hrec : int16View rest with - | ws'
    · rw [int16View, hrec] at h; simp at h
    · rw [int16View, hrec] at h
      simp at h
      subst h
      intro i hi'
      cases i with
      | zero => simp
      | succ i' =>
        have hrec2 := ih ws' hrec i' (by simpa using hi')
        have e1 : 2 * (i' + 1) = 2 * i' + 1 + 1 := by ring
        rw [e1]
        simpa [List.getD_cons_succ] using hrec2

/-! ### Audio playback (`playAudio`, `stopAudio`)

The module state of `geminiService.ts` holds one `AudioContext` and one
`currentSource` variable.  The platform facts used by the model, from the
Web Audio specification: a started `AudioBufferSourceNode` stops playing
either when `stop()` is called on it or when its buffer is exhausted; in
either case a task is queued to fire the `ended` event, whose handler —
installed by `playAudio` as `() => { currentSource = null; onEnded(); }` —
runs later on the event loop; stopping an already-stopped node queues no
further event.  Sources are identified by creation order. -/

structure AudioPlayerState where
  /-- Fresh identifier for the next created source. -/
  nextId : Nat
  /-- The module-level `currentSource` variable. -/
  currentSource : Option Nat
  /-- Sources that were started and are still playing. -/
  playing : List Nat
  /-- Queued `ended` events whose handler has not yet run. -/
  pendingEnded : List Nat
  /-- Sources whose `ended` handler ran, invoking the caller's `onEnded`. -/
  endedFired : List Nat
  /-- Log of `source.stop()` invocations. -/
  stopCalls : List Nat
  deriving DecidableEq

def initialAudioState : AudioPlayerState :=
  { nextId := 0, currentSource := none, playing := [], pendingEnded := [],
    endedFired := [], stopCalls := [] }

/-- `stopAudio` (geminiService.ts:204-210): when `currentSource` is set, it
is stopped and disconnected and the variable is cleared; otherwise nothing
happens.  If the source was still playing, its `ended` event is queued. -/
def stopAudio (st : AudioPlayerState) : AudioPlayerState :=
  match st.currentSource with
  | none => st
  | some s =>
    { st with
      currentSource := none
      stopCalls := st.stopCalls ++ [s]
      playing := st.playing.erase s
      pendingEnded := if st.playing.contains s then st.pendingEnded ++ [s]
                      else st.pendingEnded }

/-- `playAudio` (geminiService.ts:187-202), from the byte payload produced
by `decode`.  It first calls `stopAudio`, then decodes; a decode exception
propagates, leaving the state as after the stop.  On success a fresh source
is created with the `onended` handler attached, connected, started, and
stored in `currentSource`. -/
def playAudio (st : AudioPlayerState) (bytes : List Nat) :
    Except String (List ℚ) × AudioPlayerState :=
  let st1 := stopAudio st
  match decodeAudioData bytes with
  | Except.error e => (Except.error e, st1)
  | Except.ok samples =>
    (Except.ok samples,
     { st1 with
       nextId := st1.nextId + 1
       currentSource := some st1.nextId
       playing := st1.playing ++ [st1.nextId] })

/-- Platform step: a playing source reaches the end of its buffer; it stops
playing and its `ended` event is queued. -/
def finishSource (st : AudioPlayerState) (s : Nat) : AudioPlayerState :=
  if st.playing.contains s then
    { st with playing := st.playing.erase s, pendingEnded := st.pendingEnded ++ [s] }
  else st

/-- Platform step: the event loop delivers the oldest queued `ended` event,
running the handler installed by `playAudio`, which unconditionally clears
`currentSource` and invokes the caller's `onEnded`. -/
def deliverEnded (st : AudioPlayerState) : AudioPlayerState :=
  match st.pendingEnded with
  | [] => st
  | s :: rest =>
    { st with pendingEnded := rest, currentSource := none,
              endedFired := st.endedFired ++ [s] }

inductive AudioAction
  | play (bytes : List Nat)
  | stop
  | finish (s : Nat)
  | deliver
  deriving DecidableEq

def audioStep (st : AudioPlayerState) : AudioAction → AudioPlayerState
  | AudioAction.play bytes => (playAudio st bytes).2
  | AudioAction.stop => stopAudio st
  | AudioAction.finish s => finishSource st s
  | AudioAction.deliver => deliverEnded st

def runAudio (acts : List AudioAction) : AudioPlayerState :=
  acts.foldl audioStep initialAudioState

/-- A run is delivery-disciplined when every `ended` event is delivered
while the `currentSource` variable is empty or still references the source
whose event is delivered. -/
def disciplined : AudioPlayerState → List AudioAction → Bool
  | _, [] => true
  | st, a :: rest =>
    (match a with
     | AudioAction.deliver =>
       st.currentSource == none || st.currentSource == st.pendingEnded.head?
     | _ => true) && disciplined (audioStep st a) rest

/-! ### Claim C5 -/

/-- Claim C5, counterexample.  The claim quantifies over every payload of
length 2*N, including N = 0: but on the empty payload `decodeAudioData`
reaches `ctx.createBuffer(1, 0, 24000)`, which throws `NotSupportedError`
(the Web Audio specification requires a positive frame count), so no
0-sample buffer is ever yielded. -/
theorem pcm_decoding_counterexample :
    ([] : List Nat).length = 2 * 0 ∧
    decodeAudioData [] = Except.error notSupportedMessage :=
  ⟨rfl, rfl⟩

/-- Claim C5, amended: for every byte payload whose length is 2*N with
N ≥ 1, decoding interprets it as N signed 16-bit little-endian samples and
yields a buffer of exactly N values whose i-th value is sample_i / 32768,
preserving sign and ordering; the N = 0 case instead fails at buffer
creation. -/
theorem pcm_decoding (bytes : List Nat) (N : Nat) (hlen : bytes.length = 2 * N)
    (hpos : 1 ≤ N) :
    ∃ samples : List ℚ, decodeAudioData bytes = Except.ok samples ∧
      samples.length = N ∧
      ∀ i, i < N →
        samples.getD i 0 =
          (toInt16 (bytes.getD (2 * i) 0 + 256 * bytes.getD (2 * i + 1) 0) : ℚ) / 32768 := by
  obtain ⟨ws, hws⟩ := int16View_even bytes (by omega)
  have hwlen : ws.length = N := by
    have := int16View_length bytes ws hws
    omega
  have hne : ¬ ws.length = 0 := by omega
  refine ⟨ws.map sampleValue, ?_, by simp [hwlen], ?_⟩
  · simp [decodeAudioData, hws, hne]
  · intro i hi
    have hi' : i < ws.length := by omega
    have him : i < (ws.map sampleValue).length := by simpa using hi'
    rw [List.getD_eq_getElem _ _ him, List.getElem_map]
    have hval := int16View_getD bytes ws hws i hi'
    rw [List.getD_eq_getElem _ _ hi'] at hval
    rw [sampleValue, hval]

theorem pcm_decoding_witness :
    ∃ samples : List ℚ, decodeAudioData [52, 18, 255, 255] = Except.ok samples ∧
      samples.length = 2 ∧
      ∀ i, i < 2 →
        samples.getD i 0 =
          (toInt16 (([52, 18, 255, 255] : List Nat).getD (2 * i) 0 +
            256 * ([52, 18, 255, 255] : List Nat).getD (2 * i + 1) 0) : ℚ) / 32768 :=
  pcm_decoding [52, 18, 255, 255] 2 rfl (by omega)

/-! ### Claim C9 -/

/-- Claim C9, confirmed.  `stopAudio` with no active source leaves the
state unchanged (and, being total, does not throw), and `stopAudio`
followed by `stopAudio` always has the same effect as a single
`stopAudio`: the first call leaves `currentSource` empty, so the second is
a no-op. -/
theorem stopAudio_idempotent :
    (∀ st : AudioPlayerState, stopAudio (stopAudio st) = stopAudio st) ∧
    (∀ st : AudioPlayerState, st.currentSource = none → stopAudio st = st) := by
  constructor
  · intro st
    cases h : st.currentSource with
    | none => simp [stopAudio, h]
    | some s => simp [stopAudio, h]
  · intro st h
    simp [stopAudio, h]

theorem stopAudio_idempotent_witness :
    stopAudio (stopAudio initialAudioState) = stopAudio initialAudioState ∧
    stopAudio initialAudioState = initialAudioState :=
  ⟨stopAudio_idempotent.1 initialAudioState,
   stopAudio_idempotent.2 initialAudioState rfl⟩

/-! ### Claim C10 -/

/-- Claim C10, counterexample.  The claim says the decode stage succeeds on
every input decoding to 2*N bytes, but on the empty payload (N = 0)
`playAudio` fails: buffer creation rejects a zero frame count.  The
previous source has nevertheless already been stopped. -/
theorem playAudio_totality_counterexample :
    ([] : List Nat).length = 2 * 0 ∧
    (playAudio initialAudioState []).1 = Except.error notSupportedMessage :=
  ⟨rfl, rfl⟩

/-- Claim C10, amended: `playAudio` succeeds exactly on payloads decoding
to a positive even number of bytes, yielding N samples from 2*N bytes; an
odd byte length makes the `Int16Array` construction throw and an empty
payload makes buffer creation throw; in every failure case the exception
propagates only after `stopAudio` has already run, so a previously active
source is already stopped. -/
theorem playAudio_totality :
    (∀ (st : AudioPlayerState) (bytes : List Nat) (N : Nat),
      bytes.length = 2 * N → 1 ≤ N →
      ∃ samples : List ℚ, (playAudio st bytes).1 = Except.ok samples ∧
        samples.length = N) ∧
    (∀ (st : AudioPlayerState) (bytes : List Nat), bytes.length % 2 = 1 →
      (playAudio st bytes).1 = Except.error rangeErrorMessage ∧
      (playAudio st bytes).2 = stopAudio st) ∧
    (∀ st : AudioPlayerState,
      (playAudio st []).1 = Except.error notSupportedMessage ∧
      (playAudio st []).2 = stopAudio st) ∧
    (∀ (st : AudioPlayerState) (bytes : List Nat) (s : Nat),
      st.currentSource = some s → s ∈ ((playAudio st bytes).2).stopCalls) := by
  refine ⟨?_, ?_, ?_, ?_⟩
  · intro st bytes N hlen hpos
    obtain ⟨samples, hs, hslen, -⟩ := pcm_decoding bytes N hlen hpos
    exact ⟨samples, by simp [playAudio, hs], hslen⟩
  · intro st bytes hodd
    have h := int16View_odd bytes hodd
    constructor <;> simp [playAudio, decodeAudioData, h]
  · intro st
    exact ⟨rfl, rfl⟩
  · intro st bytes s h
    have hstop : s ∈ (stopAudio st).stopCalls := by simp [stopAudio, h]
    rcases hdec : decodeAudioData bytes with e | samples
    · simpa [playAudio, hdec] using hstop
    · simpa [playAudio, hdec] using hstop

theorem playAudio_totality_witness :
    (∃ samples : List ℚ,
      (playAudio initialAudioState [52, 18, 255, 255]).1 = Except.ok samples ∧
        samples.length = 2) ∧
    ((playAudio initialAudioState [0]).1 = Except.error rangeErrorMessage ∧
      (playAudio initialAudioState [0]).2 = stopAudio initialAudioState) :=
  ⟨playAudio_totality.1 initialAudioState [52, 18, 255, 255] 2 rfl (by omega),
   playAudio_totality.2.1 initialAudioState [0] rfl⟩

/-! ### Claim C7 -/

/-- A minimal valid payload: one 16-bit zero sample. -/
def twoBytes : List Nat := [0, 0]

/-- play source 0; stop it; play source 1; deliver source 0's queued
`ended` event (its handler clears `currentSource`, orphaning source 1);
play source 2 — which therefore does not stop source 1. -/
def raceTrace : List AudioAction :=
  [AudioAction.play twoBytes, AudioAction.stop, AudioAction.play twoBytes,
   AudioAction.deliver, AudioAction.play twoBytes]

/-- play source 0; stop it explicitly; deliver the `ended` event that the
stop queued. -/
def stopTrace : List AudioAction :=
  [AudioAction.play twoBytes, AudioAction.stop, AudioAction.deliver]

/-- Invariant of playback states reachable under disciplined delivery:
identifiers are below `nextId`, queued `ended` events belong to sources no
longer playing, and the playing sources are exactly the one referenced by
`currentSource`, if any. -/
def audioInv (st : AudioPlayerState) : Prop :=
  (∀ s ∈ st.playing, s < st.nextId) ∧
  (∀ s ∈ st.pendingEnded, s < st.nextId) ∧
  (∀ s, st.currentSource = some s → s < st.nextId) ∧
  (∀ s ∈ st.pendingEnded, s ∉ st.playing) ∧
  (st.playing = [] ∨ ∃ s, st.playing = [s] ∧ st.currentSource = some s)

theorem audioInv_init : audioInv initialAudioState := by
  refine ⟨?_, ?_, ?_, ?_, Or.inl rfl⟩ <;> simp [initialAudioState]

theorem audioInv_playing_erase (st : AudioPlayerState) (s : Nat) (h : audioInv st)
    (hc : st.currentSource = some s) : st.playing.erase s = [] := by
  rcases h.2.2.2.2 with hnil | ⟨t, hpl, hcur⟩
  · simp [hnil]
  · rw [hc] at hcur
    obtain rfl : t = s := Option.some.inj hcur.symm
    simp [hpl]

theorem stopAudio_currentSource (st : AudioPlayerState) :
    (stopAudio st).currentSource = none := by
  cases h : st.currentSource with
  | none => simp only [stopAudio, h]
  | some s => simp only [stopAudio, h]

theorem audioInv_stop (st : AudioPlayerState) (h : audioInv st) : audioInv (stopAudio st) := by
  obtain ⟨h1, h2, h3, h4, h5⟩ := h
  cases hc : st.currentSource with
  | none =>
    simp only [stopAudio, hc]
    exact ⟨h1, h2, h3, h4, h5⟩
  | some s =>
    have hs : s < st.nextId := h3 s hc
    have her : st.playing.erase s = [] :=
      audioInv_playing_erase st s ⟨h1, h2, h3, h4, h5⟩ hc
    simp only [audioInv, stopAudio, hc]
    refine ⟨?_, ?_, ?_, ?_, ?_⟩
    · intro t ht
      rw [her] at ht
      simp at ht
    · intro t ht
      by_cases hmem : st.playing.contains s = true
      · rw [if_pos hmem] at ht
        rcases List.mem_append.mp ht with ht' | ht'
        · exact h2 t ht'
        · simp at ht'
          subst ht'
          exact hs
      · rw [if_neg hmem] at ht
        exact h2 t ht
    · intro t ht
      simp at ht
    · intro t ht
      rw [her]
      simp
    · left
      exact her

theorem stopAudio_playing_nil (st : AudioPlayerState) (h : audioInv st) :
    (stopAudio st).playing = [] := by
  have h1 := audioInv_stop st h
  rcases h1.2.2.2.2 with hnil | ⟨s, hs, hc⟩
  · exact hnil
  · rw [stopAudio_currentSource] at hc
    cases hc

theorem audioInv_play (st : AudioPlayerState) (bytes : List Nat) (h : audioInv st) :
    audioInv ((playAudio st bytes).2) := by
  have h1 : audioInv (stopAudio st) := audioInv_stop st h
  have hpl : (stopAudio st).playing = [] := stopAudio_playing_nil st h
  rcases hdec : decodeAudioData bytes with e | samples
  · simp only [playAudio, hdec]
    exact h1
  · obtain ⟨g1, g2, g3, g4, g5⟩ := h1
    simp only [audioInv, playAudio, hdec]
    refine ⟨?_, ?_, ?_, ?_, ?_⟩
    · intro t ht
      rw [hpl] at ht
      simp at ht
      subst ht
      simp
    · intro t ht
      have := g2 t ht
      omega
    · intro t ht
      simp at ht
      subst ht
      simp
    · intro t ht
      have := g2 t ht
      rw [hpl]
      simp
      omega
    · right
      refine ⟨(stopAudio st).nextId, ?_, rfl⟩
      rw [hpl]
      simp

theorem audioInv_finish (st : AudioPlayerState) (s : Nat) (h : audioInv st) :
    audioInv (finishSource st s) := by
  obtain ⟨h1, h2, h3, h4, h5⟩ := h
  by_cases hmem : st.playing.contains s = true
  · have hsp : s ∈ st.playing := by simpa using hmem
    have hper : st.playing = [s] := by
      rcases h5 with hnil | ⟨t, ht, hc⟩
      · rw [hnil] at hsp; simp at hsp
      · rw [ht] at hsp
        simp at hsp
        subst hsp
        exact ht
    simp only [audioInv, finishSource, if_pos hmem]
    refine ⟨?_, ?_, ?_, ?_, Or.inl ?_⟩
    · intro t ht
      rw [hper] at ht
      simp at ht
    · intro t ht
      rcases List.mem_append.mp ht with ht' | ht'
      · exact h2 t ht'
      · simp at ht'
        rw [ht']
        exact h1 s hsp
    · intro t ht
      exact h3 t ht
    · intro t ht
      rw [hper]
      simp
    · rw [hper]
      simp
  · simp only [finishSource, if_neg hmem]
    exact ⟨h1, h2, h3, h4, h5⟩

theorem audioInv_deliver (st : AudioPlayerState) (h : audioInv st)
    (hd : st.currentSource = none ∨ st.currentSource = st.pendingEnded.head?) :
    audioInv (deliverEnded st) := by
  obtain ⟨h1, h2, h3, h4, h5⟩ := h
  cases hp : st.pendingEnded with
  | nil =>
    simp only [deliverEnded, hp]
    exact ⟨h1, h2, h3, h4, h5⟩
  | cons p rest =>
    have hply : st.playing = [] := by
      rcases h5 with hnil | ⟨t, ht, hc⟩
      · exact hnil
      · rcases hd with hdn | hdh
        · rw [hdn] at hc; cases hc
        · exfalso
          rw [hp, hc] at hdh
          simp at hdh
          have hpm : p ∈ st.pendingEnded := by rw [hp]; exact List.mem_cons_self p rest
          refine h4 p hpm ?_
          rw [ht, hdh]
          simp
    simp only [audioInv, deliverEnded, hp]
    refine ⟨?_, ?_, ?_, ?_, Or.inl hply⟩
    · intro t ht
      rw [hply] at ht
      simp at ht
    · intro t ht
      exact h2 t (by rw [hp]; simp [ht])
    · intro t ht
      simp at ht
    · intro t ht
      rw [hply]
      simp

theorem audioInv_run (acts : List AudioAction) :
    ∀ st : AudioPlayerState, audioInv st → disciplined st acts = true →
      audioInv (List.foldl audioStep st acts) := by
  induction acts with
  | nil =>
    intro st h _
    simpa using h
  | cons a rest ih =>
    intro st h hd
    rw [List.foldl_cons]
    cases a with
    | play bytes =>
      simp only [disciplined, Bool.true_and] at hd
      exact ih _ (audioInv_play st bytes h) hd
    | stop =>
      simp only [disciplined, Bool.true_and] at hd
      exact ih _ (audioInv_stop st h) hd
    | finish s =>
      simp only [disciplined, Bool.true_and] at hd
      exact ih _ (audioInv_finish st s h) hd
    | deliver =>
      simp only [disciplined, Bool.and_eq_true] at hd
      obtain ⟨hda, hdr⟩ := hd
      have hor : st.currentSource = none ∨
          st.currentSource = st.pendingEnded.head? := by
        simpa using hda
      exact ih _ (audioInv_deliver st h hor) hdr

/-- Claim C7, counterexample.  The claim asserts at most one active source
across all interleavings.  In the trace `raceTrace` the `ended` event of an
explicitly stopped source is delivered after a newer playback has started:
its handler unconditionally clears `currentSource`, orphaning source 1, so
the final `playAudio` call does not stop it — afterwards sources 1 and 2
are both playing, and the stop-call log shows source 1 was never stopped
even though it was active when source 2 was created and started. -/
theorem playback_exclusivity_counterexample :
    (runAudio raceTrace).playing = [1, 2] ∧ (runAudio raceTrace).stopCalls = [0] :=
  ⟨rfl, rfl⟩

/-- Claim C7, amended.  Each `playAudio` call stops (and disconnects and
releases) the source referenced by `currentSource` before the new source is
created and started; and in every run in which each `ended` event is
delivered while `currentSource` is empty or still references the ending
source, at most one source is playing at any time.  Without that timing
condition a stale `ended` handler can orphan a newer source, as the
counterexample shows. -/
theorem playback_exclusivity :
    (∀ (st : AudioPlayerState) (bytes : List Nat) (s : Nat), audioInv st →
      st.currentSource = some s →
      (playAudio st bytes).2.stopCalls = st.stopCalls ++ [s] ∧
      s ∉ (playAudio st bytes).2.playing) ∧
    (∀ acts : List AudioAction, disciplined initialAudioState acts = true →
      (runAudio acts).playing.length ≤ 1) := by
  constructor
  · intro st bytes s hinv hc
    have hs : s < st.nextId := hinv.2.2.1 s hc
    have hstops : (stopAudio st).stopCalls = st.stopCalls ++ [s] := by
      simp only [stopAudio, hc]
    have hnext : (stopAudio st).nextId = st.nextId := by
      simp only [stopAudio, hc]
    have hpl : (stopAudio st).playing = [] := stopAudio_playing_nil st hinv
    rcases hdec : decodeAudioData bytes with e | samples
    · simp only [playAudio, hdec]
      exact ⟨hstops, by rw [hpl]; simp⟩
    · simp only [playAudio, hdec]
      refine ⟨hstops, ?_⟩
      rw [hpl, hnext]
      simp
      omega
  · intro acts hd
    have h := audioInv_run acts initialAudioState audioInv_init hd
    rcases h.2.2.2.2 with hnil | ⟨s, hsz, -⟩
    · rw [runAudio, hnil]
      simp
    · rw [runAudio, hsz]
      simp

/-- The state after one playback has started from the initial state:
source 0 is current and playing. -/
def statePlaying0 : AudioPlayerState := (playAudio initialAudioState twoBytes).2

theorem playback_exclusivity_witness :
    ((playAudio statePlaying0 twoBytes).2.stopCalls = statePlaying0.stopCalls ++ [0] ∧
      0 ∉ (playAudio statePlaying0 twoBytes).2.playing) ∧
    (runAudio [AudioAction.play twoBytes, AudioAction.stop]).playing.length ≤ 1 :=
  ⟨playback_exclusivity.1 statePlaying0 twoBytes 0
      (audioInv_play initialAudioState twoBytes audioInv_init) rfl,
   playback_exclusivity.2 [AudioAction.play twoBytes, AudioAction.stop] rfl⟩

/-! ### Claim C8 -/

/-- Claim C8, counterexample.  The claim says an explicit `stopAudio` does
not invoke `onEnded`.  But `stop()` makes the source stop playing, which
per the Web Audio specification fires its `ended` event; the handler
installed by `playAudio` is never detached, so delivering the event runs
the caller's `onEnded`.  In `stopTrace` no source ever completes naturally
(there is no `finish` step), yet source 0's `onEnded` is invoked.  The
caller in `App.tsx` even relies on this: its pause button calls
`stopAudio()` and resets the playing-clip highlight only inside the
`onEnded` callback. -/
theorem stop_invokes_onEnded_counterexample :
    (runAudio stopTrace).endedFired = [0] ∧ AudioAction.finish 0 ∉ stopTrace :=
  ⟨rfl, by decide⟩

/-- Invariant for `onEnded` accounting, over the state components: source
identifiers are below `nextId`, a playing source has neither a queued nor a
delivered `ended` event, the playing list has no duplicates, and each
source has at most one queued-or-delivered `ended` event in total. -/
def endedInvCore (nextId : Nat) (playing pending fired : List Nat) : Prop :=
  (∀ s ∈ playing, s < nextId) ∧
  (∀ s ∈ pending, s < nextId) ∧
  (∀ s ∈ fired, s < nextId) ∧
  (∀ s ∈ playing, s ∉ pending ∧ s ∉ fired) ∧
  playing.Nodup ∧
  (∀ s, pending.count s + fired.count s ≤ 1)

def endedInv (st : AudioPlayerState) : Prop :=
  endedInvCore st.nextId st.playing st.pendingEnded st.endedFired

theorem endedInv_init : endedInv initialAudioState := by
  refine ⟨?_, ?_, ?_, ?_, ?_, ?_⟩ <;> simp [initialAudioState]

/-- Queueing the `ended` event of a playing source — the common effect of
stopping it and of its natural completion — preserves the accounting
invariant. -/
theorem endedInvCore_queue (nextId : Nat) (playing pending fired : List Nat) (s : Nat)
    (h : endedInvCore nextId playing pending fired) (hs : s ∈ playing) :
    endedInvCore nextId (playing.erase s) (pending ++ [s]) fired := by
  obtain ⟨h1, h2, h3, h4, h5, h6⟩ := h
  obtain ⟨hsp, hsf⟩ := h4 s hs
  refine ⟨?_, ?_, h3, ?_, h5.erase s, ?_⟩
  · intro t ht
    exact h1 t (List.mem_of_mem_erase ht)
  · intro t ht
    rcases List.mem_append.mp ht with ht' | ht'
    · exact h2 t ht'
    · simp at ht'
      rw [ht']
      exact h1 s hs
  · intro t ht
    have htp := List.mem_of_mem_erase ht
    have htne : t ≠ s := ((List.Nodup.mem_erase_iff h5).mp ht).1
    obtain ⟨htpend, htf⟩ := h4 t htp
    refine ⟨?_, htf⟩
    intro hmem
    rcases List.mem_append.mp hmem with hm | hm
    · exact htpend hm
    · simp at hm
      exact htne hm
  · intro t
    rw [List.count_append]
    by_cases hts : t = s
    · subst hts
      have hp0 : pending.count t = 0 := List.count_eq_zero.mpr hsp
      have hf0 : fired.count t = 0 := List.count_eq_zero.mpr hsf
      simp [hp0, hf0]
    · have h0 : List.count t [s] = 0 := by
        rw [List.count_eq_zero]
        simp [hts]
      have := h6 t
      omega

theorem endedInv_stop (st : AudioPlayerState) (h : endedInv st) :
    endedInv (stopAudio st) := by
  cases hc : st.currentSource with
  | none => simpa [endedInv, stopAudio, hc] using h
  | some s =>
    by_cases hmem : st.playing.contains s = true
    · have hs : s ∈ st.playing := by simpa using hmem
      have hq := endedInvCore_queue st.nextId st.playing st.pendingEnded st.endedFired s h hs
      simpa [endedInv, stopAudio, hc, hs] using hq
    · have hs : s ∉ st.playing := by simpa using hmem
      have her : st.playing.erase s = st.playing := List.erase_of_not_mem hs
      simpa [endedInv, stopAudio, hc, hs, her] using h

theorem endedInv_play (st : AudioPlayerState) (bytes : List Nat) (h : endedInv st) :
    endedInv ((playAudio st bytes).2) := by
  have h1 : endedInv (stopAudio st) := endedInv_stop st h
  rcases hdec : decodeAudioData bytes with e | samples
  · simpa [playAudio, hdec] using h1
  · obtain ⟨g1, g2, g3, g4, g5, g6⟩ := h1
    simp only [endedInv, endedInvCore, playAudio, hdec]
    refine ⟨?_, ?_, ?_, ?_, ?_, g6⟩
    · intro t ht
      rcases List.mem_append.mp ht with ht' | ht'
      · have := g1 t ht'
        omega
      · simp at ht'
        rw [ht']
        omega
    · intro t ht
      have := g2 t ht
      omega
    · intro t ht
      have := g3 t ht
      omega
    · intro t ht
      rcases List.mem_append.mp ht with ht' | ht'
      · exact g4 t ht'
      · simp at ht'
        rw [ht']
        constructor
        · intro hm
          have := g2 _ hm
          omega
        · intro hm
          have := g3 _ hm
          omega
    · rw [List.nodup_append]
      refine ⟨g5, List.nodup_singleton _, ?_⟩
      intro a ha hb
      simp at hb
      have := g1 a ha
      omega

theorem endedInv_finish (st : AudioPlayerState) (s : Nat) (h : endedInv st) :
    endedInv (finishSource st s) := by
  by_cases hmem : st.playing.contains s = true
  · have hs : s ∈ st.playing := by simpa using hmem
    have hq := endedInvCore_queue st.nextId st.playing st.pendingEnded st.endedFired s h hs
    simpa [endedInv, finishSource, hs] using hq
  · have hs : s ∉ st.playing := by simpa using hmem
    simpa [endedInv, finishSource, hs] using h

theorem endedInv_deliver (st : AudioPlayerState) (h : endedInv st) :
    endedInv (deliverEnded st) := by
  obtain ⟨h1, h2, h3, h4, h5, h6⟩ := h
  cases hp : st.pendingEnded with
  | nil =>
    have hid : deliverEnded st = st := by simp only [deliverEnded, hp]
    rw [hid]
    exact ⟨h1, h2, h3, h4, h5, h6⟩
  | cons p rest =>
    simp only [endedInv, endedInvCore, deliverEnded, hp]
    refine ⟨h1, ?_, ?_, ?_, h5, ?_⟩
    · intro t ht
      exact h2 t (by rw [hp]; simp [ht])
    · intro t ht
      rcases List.mem_append.mp ht with ht' | ht'
      · exact h3 t ht'
      · simp at ht'
        rw [ht']
        exact h2 p (by rw [hp]; simp)
    · intro t ht
      obtain ⟨htp, htf⟩ := h4 t ht
      constructor
      · intro hm
        exact htp (by rw [hp]; simp [hm])
      · intro hm
        rcases List.mem_append.mp hm with hm' | hm'
        · exact htf hm'
        · simp at hm'
          refine htp ?_
          rw [hp, hm']
          simp
    · intro t
      have := h6 t
      rw [hp, List.count_cons] at this
      rw [List.count_append]
      by_cases htp : t = p
      · subst htp
        simp at this ⊢
        omega
      · simp [htp] at this ⊢
        omega

theorem endedInv_step (st : AudioPlayerState) (a : AudioAction) (h : endedInv st) :
    endedInv (audioStep st a) := by
  cases a with
  | play bytes => exact endedInv_play st bytes h
  | stop => exact endedInv_stop st h
  | finish s => exact endedInv_finish st s h
  | deliver => exact endedInv_deliver st h

theorem endedInv_foldl (acts : List AudioAction) :
    ∀ st : AudioPlayerState, endedInv st → endedInv (List.foldl audioStep st acts) := by
  induction acts with
  | nil =>
    intro st h
    simpa using h
  | cons a rest ih =>
    intro st h
    rw [List.foldl_cons]
    exact ih _ (endedInv_step st a h)

theorem endedInv_run (acts : List AudioAction) : endedInv (runAudio acts) := by
  rw [runAudio]
  exact endedInv_foldl acts initialAudioState endedInv_init

/-- Claim C8, amended.  Each playback's `onEnded` is invoked at most once,
namely when its single queued `ended` event is delivered; the event is
queued both when the source completes naturally and when it is explicitly
stopped while playing — an explicit `stopAudio` therefore also causes one
`onEnded` invocation rather than suppressing it. -/
theorem onEnded_invocation :
    (∀ (acts : List AudioAction) (s : Nat), (runAudio acts).endedFired.count s ≤ 1) ∧
    (∀ (st : AudioPlayerState) (s : Nat) (rest : List Nat),
      st.pendingEnded = s :: rest →
      (deliverEnded st).endedFired = st.endedFired ++ [s]) ∧
    (∀ (st : AudioPlayerState) (s : Nat), st.currentSource = some s →
      st.playing.contains s = true →
      (stopAudio st).pendingEnded = st.pendingEnded ++ [s]) ∧
    (∀ (st : AudioPlayerState) (s : Nat), st.playing.contains s = true →
      (finishSource st s).pendingEnded = st.pendingEnded ++ [s]) := by
  refine ⟨?_, ?_, ?_, ?_⟩
  · intro acts s
    have h := endedInv_run acts
    have h6 := h.2.2.2.2.2 s
    omega
  · intro st s rest hp
    simp only [deliverEnded, hp]
  · intro st s hc hmem
    simp only [stopAudio, hc, if_pos hmem]
  · intro st s hmem
    simp only [finishSource, if_pos hmem]

theorem onEnded_invocation_witness :
    (runAudio stopTrace).endedFired.count 0 ≤ 1 ∧
    (stopAudio statePlaying0).pendingEnded = statePlaying0.pendingEnded ++ [0] :=
  ⟨onEnded_invocation.1 stopTrace 0,
   onEnded_invocation.2.2.1 statePlaying0 0 rfl rfl⟩

end GeminiService
